import Mathlib

/-!
Verification of `sktime/clustering_redo/partitioning/_lloyds.py`.

The module is a partial implementation of time-series Lloyds (k-means style)
clustering. We embed its data model and operations shallowly:

* an `Instance` (one time series) is a list of rationals;
* `pairwise_distance` (from `sktime.distances`, outside this file) is modelled
  from the spec as the full instance-by-center distance matrix;
* `np.argmin` over a distance row is modelled as the index of the first
  occurrence of the minimum (numpy breaks ties by lowest index);
* `np.random.RandomState` is modelled as a deterministic stream of naturals
  together with a position; `choice(n, size)` with the default
  `replace=True` consumes `size` stream values, each reduced mod `n`;
* fallible steps return `Except String`, mirroring raised `ValueError`s.
-/

namespace SktimeLloyds

/-- A time series instance: an ordered sequence of real-valued samples,
modelled over the rationals. -/
abbrev Instance := List ℚ

/-- Minimum value of a nonempty list of rationals (0 on the empty list, which
is outside the modelled domain: numpy raises on an empty reduction). -/
def listMin : List ℚ → ℚ
  | [] => 0
  | [v] => v
  | v :: w :: rest => min v (listMin (w :: rest))

/-- Model of `np.argmin` over one row: the index of the first occurrence of
the minimum value. On ties numpy returns the lowest index, which is the
behaviour captured by the `≤` comparison against the minimum of the tail. -/
def argmin : List ℚ → Nat
  | [] => 0
  | [_] => 0
  | v :: w :: rest => if v ≤ listMin (w :: rest) then 0 else argmin (w :: rest) + 1

lemma listMin_cons (v : ℚ) (l : List ℚ) (h : l ≠ []) :
    listMin (v :: l) = min v (listMin l) := by
  cases l with
  | nil => exact absurd rfl h
  | cons w rest => rfl

lemma listMin_le (l : List ℚ) : ∀ x ∈ l, listMin l ≤ x := by
  induction l with
  | nil => intro x hx; exact absurd hx (List.not_mem_nil x)
  | cons v rest ih =>
    intro x hx
    cases rest with
    | nil =>
      rcases List.mem_singleton.mp hx with rfl
      exact le_refl _
    | cons w tail =>
      rw [listMin_cons v (w :: tail) (by simp)]
      rcases List.mem_cons.mp hx with rfl | hmem
      · exact min_le_left _ _
      · exact le_trans (min_le_right _ _) (ih x hmem)

lemma argmin_lt_length (l : List ℚ) (h : l ≠ []) : argmin l < l.length := by
  induction l with
  | nil => exact absurd rfl h
  | cons v rest ih =>
    cases rest with
    | nil => simp [argmin]
    | cons w tail =>
      by_cases hv : v ≤ listMin (w :: tail)
      · simp [argmin, hv]
      · have := ih (by simp)
        simp only [List.length_cons] at this
        simp only [argmin, if_neg hv, List.length_cons]
        omega

lemma argmin_getD (l : List ℚ) (h : l ≠ []) : l.getD (argmin l) 0 = listMin l := by
  induction l with
  | nil => exact absurd rfl h
  | cons v rest ih =>
    cases rest with
    | nil => simp [argmin, listMin]
    | cons w tail =>
      by_cases hv : v ≤ listMin (w :: tail)
      · have : min v (listMin (w :: tail)) = v := min_eq_left hv
        simp [argmin, hv, listMin_cons v (w :: tail) (by simp), this]
      · have hlt : listMin (w :: tail) < v := lt_of_not_le hv
        have : min v (listMin (w :: tail)) = listMin (w :: tail) :=
          min_eq_right (le_of_lt hlt)
        simp only [argmin, if_neg hv, listMin_cons v (w :: tail) (by simp), this]
        simpa using ih (by simp)

lemma getD_mem_of_lt (l : List ℚ) (j : Nat) (hj : j < l.length) :
    l.getD j 0 ∈ l := by
  rw [List.getD_eq_getElem l 0 hj]
  exact List.getElem_mem hj

lemma argmin_le_getD (l : List ℚ) (h : l ≠ []) (j : Nat) (hj : j < l.length) :
    l.getD (argmin l) 0 ≤ l.getD j 0 := by
  rw [argmin_getD l h]
  exact listMin_le l _ (getD_mem_of_lt l j hj)

lemma argmin_first (l : List ℚ) :
    ∀ j < l.length, l.getD j 0 = listMin l → argmin l ≤ j := by
  induction l with
  | nil => intro j hj; simp at hj
  | cons v rest ih =>
    intro j hj hval
    cases rest with
    | nil => simp [argmin]
    | cons w tail =>
      by_cases hv : v ≤ listMin (w :: tail)
      · simp [argmin, hv]
      · have hlt : listMin (w :: tail) < v := lt_of_not_le hv
        have hmin : listMin (v :: w :: tail) = listMin (w :: tail) := by
          rw [listMin_cons v (w :: tail) (by simp)]
          exact min_eq_right (le_of_lt hlt)
        cases j with
        | zero =>
          exfalso
          rw [hmin] at hval
          simp only [List.getD] at hval
          simp at hval
          exact absurd hval (ne_of_gt hlt)
        | succ j =>
          have hj' : j < (w :: tail).length := by
            simp only [List.length_cons] at hj ⊢; omega
          have hval' : (w :: tail).getD j 0 = listMin (w :: tail) := by
            rw [hmin] at hval
            simpa using hval
          have := ih j hj' hval'
          simp only [argmin, if_neg hv]
          omega

/-- Modelled from the spec: `sktime.distances.pairwise_distance(X, Y, metric=d)`
(implemented outside this module) returns the matrix whose entry `(i, j)` is
the distance between instance `i` of `X` and instance `j` of `Y` under the
supplied metric. -/
def pairwise_distance (d : Instance → Instance → ℚ) (X Y : List Instance) :
    List (List ℚ) :=
  X.map (fun x => Y.map (fun y => d x y))

/-- `_assign_clusters(X, distance, center_indexes)`: the distance matrix from
every instance of `X` to the sub-collection `X[center_indexes, :]`, reduced by
`argmin(axis=1)`. Out-of-range center indexes are outside the modelled domain
(numpy raises); `getD _ []` keeps the function total. -/
def _assign_clusters (d : Instance → Instance → ℚ) (X : List Instance)
    (center_indexes : List Nat) : List Nat :=
  (pairwise_distance d X (center_indexes.map (fun j => X.getD j []))).map argmin

/-- Model of `np.random.RandomState`: the deterministic stream of naturals
that a given seed determines, together with the current position in it.
Consuming randomness advances the position. -/
structure RandomState where
  stream : Nat → Nat
  pos : Nat

/-- Modelled from numpy semantics: `RandomState.choice(n, size)` with the
default `replace=True` draws `size` values, each uniform over `[0, n)` and
independent of the others; each draw consumes one stream value, reduced
mod `n`. The case `n = 0` is outside the modelled domain (numpy raises). -/
def RandomState.choice (rs : RandomState) (n : Nat) (size : Nat) :
    List Nat × RandomState :=
  ((List.range size).map (fun i => rs.stream (rs.pos + i) % n),
    ⟨rs.stream, rs.pos + size⟩)

/-- `_forgy_center_initializer(X, n_centers, random_state)`: the source returns
`random_state.choice(X.shape[0], n_centers)` — an index array drawn with
replacement (the numpy default, no `replace=False`), together with the advanced
generator state. -/
def _forgy_center_initializer (X : List Instance) (n_centers : Nat)
    (random_state : RandomState) : List Nat × RandomState :=
  random_state.choice X.length n_centers

/-- The type of a center-initializer callable, as used by the class. -/
abbrev InitFn := List Instance → Nat → RandomState → List Nat × RandomState

/-- The `init_algorithm` constructor argument: either a strategy name or a
callable supplied directly. -/
inductive InitAlgorithmParam where
  | name (s : String)
  | callable (f : InitFn)

/-- The fixed registry `_init_algorithms = {"forgy": _forgy_center_initializer,
"random": None}`. -/
def _init_algorithms : List (String × Option InitFn) :=
  [("forgy", some _forgy_center_initializer), ("random", none)]

/-- Python `dict.get(key)`: the stored value when the key is present, `None`
otherwise. Since the stored values are themselves `Option`s, a stored `None`
("random") and a missing key both yield `none`, exactly as in the source. -/
def dictGet (l : List (String × Option InitFn)) (s : String) : Option InitFn :=
  match l with
  | [] => none
  | (k, v) :: rest => if s = k then v else dictGet rest s

/-- The error message raised when `_init_algorithm` is not callable. -/
def initErrMsg : String :=
  "The value provided for init_algorim is invalid."

/-- The init-algorithm resolution inside `_check_params`: a string is looked up
in `_init_algorithms` (unrecognized or `None`-valued keys resolve to `none`), a
callable is used directly; a non-callable result raises `ValueError`. -/
def checkInitAlgorithm : InitAlgorithmParam → Except String InitFn
  | .name s =>
    match dictGet _init_algorithms s with
    | some f => .ok f
    | none => .error initErrMsg
  | .callable f => .ok f

/-- The registry of metric names accepted by `sktime.distances.distance_factory`
(implemented outside this module). Modelled from the spec: the distance is
selected by name from a registry; an unrecognized name is a configuration
error. -/
def distance_factory_names : List String :=
  ["dtw", "euclidean", "erp", "edr", "lcss", "msm", "ddtw", "wdtw", "wddtw"]

/-- Modelled from the spec: `distance_factory(X[0], X[1], metric)` resolves the
metric name (the resolved callable itself is supplied separately to the
embedded functions). -/
def distance_factory (metric : String) : Except String Unit :=
  if metric ∈ distance_factory_names then .ok () else .error "unknown metric"

/-- The constructor parameters of `_Lloyds` that the embedded methods consult. -/
structure LloydsParams where
  n_clusters : Nat
  init_algorithm : InitAlgorithmParam
  metric : String
  n_init : Nat
  max_iter : Nat

/-- The estimator state: constructor parameters, the seed (represented by the
stream it determines), and the attributes set by `__init__` and `_fit`.
`intertia_` keeps the (misspelled) attribute name of the source. -/
structure LloydsEstimator where
  params : LloydsParams
  seed_stream : Nat → Nat
  _random_state : Option RandomState
  cluster_centers_ : Option (List Nat)
  labels_ : Option (List Nat)
  intertia_ : Option ℚ

/-- Modelled from sklearn semantics: `check_random_state(seed)` returns a fresh
generator whose output stream is determined by the seed, at position 0. -/
def check_random_state (stream : Nat → Nat) : RandomState :=
  ⟨stream, 0⟩

/-- The random-state resolution at the top of `_check_params`: reuse the cached
`self._random_state` when present, otherwise create it from the seed. The cached
state is NOT reset on a later call. -/
def resolveRandomState (e : LloydsEstimator) : RandomState :=
  match e._random_state with
  | none => check_random_state e.seed_stream
  | some r => r

/-- `_Lloyds._check_params(X)`: resolve the random state, resolve the metric via
`distance_factory`, resolve the init algorithm, and raise `ValueError` when the
latter is not callable. No other parameter is examined: in particular
`n_clusters`, `n_init` and `max_iter` are never validated, and `X` is used only
to pass sample instances to `distance_factory`. -/
def _check_params (X : List Instance) (e : LloydsEstimator) :
    Except String (RandomState × InitFn) :=
  match distance_factory e.params.metric with
  | .error msg => .error msg
  | .ok _ =>
    match checkInitAlgorithm e.params.init_algorithm with
    | .error msg => .error msg
    | .ok init => .ok (resolveRandomState e, init)

/-- `_compute_new_cluster_centers`: the source body is `pass`, returning
`None`. -/
def _compute_new_cluster_centers (X : List Instance)
    (cluster_assignment_indexes : List Nat) : Option (List Instance) :=
  none

/-- `_numba_lloyds(X, distance, initial_center_indexes)`: one assignment step,
one (no-op) center computation, and an implicit `return None`. There is no
iteration loop and `max_iter` is not among its parameters. -/
def _numba_lloyds (d : Instance → Instance → ℚ) (X : List Instance)
    (initial_center_indexes : List Nat) : Unit :=
  let cluster_assignment_indexes := _assign_clusters d X initial_center_indexes
  let _new_centers := _compute_new_cluster_centers X cluster_assignment_indexes
  ()

/-- The assignment steps performed by one call of `_numba_lloyds`, in order:
its body contains exactly one `_assign_clusters` call and no loop. -/
def _numba_lloyds_assignment_trace (d : Instance → Instance → ℚ)
    (X : List Instance) (initial_center_indexes : List Nat) : List (List Nat) :=
  [_assign_clusters d X initial_center_indexes]

/-- `_Lloyds._fit(X)`: check parameters, run the configured initializer once,
store its result in `cluster_centers_`, call `_numba_lloyds` once on it (the
result is discarded), and return. `labels_` and `intertia_` are never
assigned, and `n_init` and `max_iter` are never read. -/
def _fit (d : Instance → Instance → ℚ) (X : List Instance)
    (e : LloydsEstimator) : Except String LloydsEstimator :=
  match _check_params X e with
  | .error msg => .error msg
  | .ok (rs, init) =>
    let centers := (init X e.params.n_clusters rs).1
    let rs' := (init X e.params.n_clusters rs).2
    let _ := _numba_lloyds d X centers
    .ok { e with _random_state := some rs', cluster_centers_ := some centers }

/-- The assignment steps performed by one `_fit` call: those of the single
`_numba_lloyds` call, or none when `_check_params` raises. -/
def _fit_assignment_trace (d : Instance → Instance → ℚ) (X : List Instance)
    (e : LloydsEstimator) : List (List Nat) :=
  match _check_params X e with
  | .error _ => []
  | .ok (rs, init) =>
    _numba_lloyds_assignment_trace d X (init X e.params.n_clusters rs).1

/-- `_Lloyds._predict(X)`: the source body is `pass`, returning `None` — no
assignment step is executed. -/
def _predict (e : LloydsEstimator) (X : List Instance) : Option (List Nat) :=
  none

/-- A concrete metric used to instantiate theorems: squared Euclidean distance
over aligned samples. -/
def sqDist (x y : Instance) : ℚ :=
  ((List.zip x y).map (fun p => (p.1 - p.2) * (p.1 - p.2))).sum

lemma getD_map_of_lt {β γ : Type} (f : β → γ) (l : List β) (i : Nat)
    (hi : i < l.length) (db : β) (dc : γ) :
    (l.map f).getD i dc = f (l.getD i db) := by
  rw [List.getD_eq_getElem (l.map f) dc (by simpa using hi),
    List.getD_eq_getElem l db hi, List.getElem_map]

lemma assign_clusters_getD (d : Instance → Instance → ℚ) (X : List Instance)
    (cidx : List Nat) (i : Nat) (hi : i < X.length) :
    (_assign_clusters d X cidx).getD i 0
      = argmin ((cidx.map (fun j => X.getD j [])).map
          (fun c => d (X.getD i []) c)) := by
  unfold _assign_clusters pairwise_distance
  rw [getD_map_of_lt argmin _ i (by simpa using hi) []]
  rw [getD_map_of_lt _ X i hi []]

lemma assign_row_getD (d : Instance → Instance → ℚ) (X : List Instance)
    (cidx : List Nat) (i : Nat) (j : Nat) (hj : j < cidx.length) :
    ((cidx.map (fun jj => X.getD jj [])).map
        (fun c => d (X.getD i []) c)).getD j 0
      = d (X.getD i []) (X.getD (cidx.getD j 0) []) := by
  rw [getD_map_of_lt _ _ j (by simpa using hj) []]
  rw [getD_map_of_lt _ cidx j hj 0]

lemma assign_row_length (d : Instance → Instance → ℚ) (X : List Instance)
    (cidx : List Nat) (i : Nat) :
    ((cidx.map (fun jj => X.getD jj [])).map
        (fun c => d (X.getD i []) c)).length = cidx.length := by
  simp

lemma assign_row_ne_nil (d : Instance → Instance → ℚ) (X : List Instance)
    (cidx : List Nat) (h : cidx ≠ []) (i : Nat) :
    (cidx.map (fun jj => X.getD jj [])).map (fun c => d (X.getD i []) c) ≠ [] := by
  simpa [List.map_eq_nil_iff] using h

/-- A small concrete instance set used by witnesses and counterexamples:
three univariate series of length 1. -/
def Xex : List Instance := [[0], [10], [4]]

/-- C1: for every instance set, distance function and nonempty center-index
list, `_assign_clusters` returns for each instance the index of a center at
minimum distance, and on ties the lowest center index is chosen. -/
theorem assign_clusters_min_and_tiebreak (d : Instance → Instance → ℚ)
    (X : List Instance) (cidx : List Nat) (h : cidx ≠ [])
    (i : Nat) (hi : i < X.length) :
    (_assign_clusters d X cidx).getD i 0 < cidx.length ∧
    (∀ j < cidx.length,
      d (X.getD i []) (X.getD (cidx.getD ((_assign_clusters d X cidx).getD i 0) 0) [])
        ≤ d (X.getD i []) (X.getD (cidx.getD j 0) [])) ∧
    (∀ j < cidx.length,
      d (X.getD i []) (X.getD (cidx.getD j 0) [])
          = d (X.getD i []) (X.getD (cidx.getD ((_assign_clusters d X cidx).getD i 0) 0) []) →
        (_assign_clusters d X cidx).getD i 0 ≤ j) := by
  set r := (cidx.map (fun jj => X.getD jj [])).map (fun c => d (X.getD i []) c) with hr
  have hlbl : (_assign_clusters d X cidx).getD i 0 = argmin r :=
    assign_clusters_getD d X cidx i hi
  have hrne : r ≠ [] := assign_row_ne_nil d X cidx h i
  have hrlen : r.length = cidx.length := assign_row_length d X cidx i
  have hltlen : argmin r < cidx.length := hrlen ▸ argmin_lt_length r hrne
  refine ⟨by rw [hlbl]; exact hltlen, ?_, ?_⟩
  · intro j hj
    have h1 : r.getD (argmin r) 0 ≤ r.getD j 0 :=
      argmin_le_getD r hrne j (by rw [hrlen]; exact hj)
    rw [hlbl]
    calc d (X.getD i []) (X.getD (cidx.getD (argmin r) 0) [])
        = r.getD (argmin r) 0 := (assign_row_getD d X cidx i (argmin r) hltlen).symm
      _ ≤ r.getD j 0 := h1
      _ = d (X.getD i []) (X.getD (cidx.getD j 0) []) := assign_row_getD d X cidx i j hj
  · intro j hj heq
    rw [hlbl] at heq ⊢
    have hj' : j < r.length := by rw [hrlen]; exact hj
    have hjmin : r.getD j 0 = listMin r := by
      rw [assign_row_getD d X cidx i j hj, heq,
        ← assign_row_getD d X cidx i (argmin r) hltlen]
      exact argmin_getD r hrne
    exact argmin_first r j hj' hjmin

/-- Witness for C1 at a concrete input. -/
theorem assign_clusters_min_and_tiebreak_witness :
    (([1, 0] : List Nat) ≠ [] ∧ 0 < Xex.length) ∧
    ((_assign_clusters sqDist Xex [1, 0]).getD 0 0 < ([1, 0] : List Nat).length ∧
     (∀ j < ([1, 0] : List Nat).length,
       sqDist (Xex.getD 0 []) (Xex.getD (([1, 0] : List Nat).getD
           ((_assign_clusters sqDist Xex [1, 0]).getD 0 0) 0) [])
         ≤ sqDist (Xex.getD 0 []) (Xex.getD (([1, 0] : List Nat).getD j 0) [])) ∧
     (∀ j < ([1, 0] : List Nat).length,
       sqDist (Xex.getD 0 []) (Xex.getD (([1, 0] : List Nat).getD j 0) [])
           = sqDist (Xex.getD 0 []) (Xex.getD (([1, 0] : List Nat).getD
               ((_assign_clusters sqDist Xex [1, 0]).getD 0 0) 0) []) →
         (_assign_clusters sqDist Xex [1, 0]).getD 0 0 ≤ j)) :=
  ⟨⟨by decide, by decide⟩,
    assign_clusters_min_and_tiebreak sqDist Xex [1, 0] (by decide) 0 (by decide)⟩

/-- C2: for every instance set and nonempty center-index list of length `k`,
the label vector has one entry per instance (in instance order) and every
label lies in `[0, k)`. -/
theorem assign_labels_in_range (d : Instance → Instance → ℚ)
    (X : List Instance) (cidx : List Nat) (h : cidx ≠ []) :
    (_assign_clusters d X cidx).length = X.length ∧
    ∀ lbl ∈ _assign_clusters d X cidx, lbl < cidx.length := by
  constructor
  · simp [_assign_clusters, pairwise_distance]
  · intro lbl hmem
    unfold _assign_clusters pairwise_distance at hmem
    rcases List.mem_map.mp hmem with ⟨row, hrow, rfl⟩
    rcases List.mem_map.mp hrow with ⟨x, hx, rfl⟩
    have hne : (cidx.map (fun jj => X.getD jj [])).map (fun c => d x c) ≠ [] := by
      simpa [List.map_eq_nil_iff] using h
    have := argmin_lt_length _ hne
    simpa using this

/-- Witness for C2 at a concrete input. -/
theorem assign_labels_in_range_witness :
    (([0, 2] : List Nat) ≠ []) ∧
    ((_assign_clusters sqDist Xex [0, 2]).length = Xex.length ∧
     ∀ lbl ∈ _assign_clusters sqDist Xex [0, 2], lbl < ([0, 2] : List Nat).length) :=
  ⟨by decide, assign_labels_in_range sqDist Xex [0, 2] (by decide)⟩

/-- An estimator as constructed by `__init__`: the fitted attributes
(`cluster_centers_`, `labels_`, `intertia_`) and the cached `_random_state`
all start as `None`. -/
def mkEstimator (p : LloydsParams) (stream : Nat → Nat) : LloydsEstimator :=
  ⟨p, stream, none, none, none, none⟩

/-- The identity stream, used as a concrete seeded source. -/
def idStream : Nat → Nat := fun i => i

lemma forgy_length (X : List Instance) (k : Nat) (rs : RandomState) :
    (_forgy_center_initializer X k rs).1.length = k := by
  simp [_forgy_center_initializer, RandomState.choice]

lemma forgy_mem_lt (X : List Instance) (k : Nat) (rs : RandomState)
    (hn : 0 < X.length) :
    ∀ c ∈ (_forgy_center_initializer X k rs).1, c < X.length := by
  intro c hc
  unfold _forgy_center_initializer RandomState.choice at hc
  simp only [List.mem_map, List.mem_range] at hc
  rcases hc with ⟨i, _, rfl⟩
  exact Nat.mod_lt _ hn

lemma dictGet_init_algorithms (s : String) :
    dictGet _init_algorithms s
      = if s = "forgy" then some _forgy_center_initializer else none := by
  show (if s = "forgy" then some _forgy_center_initializer
        else if s = "random" then (none : Option InitFn) else none)
      = if s = "forgy" then some _forgy_center_initializer else none
  by_cases h2 : s = "random" <;> simp [h2]

/-- C4: a fit call whose `init_algorithm` is a string that does not name a
valid callable strategy in the registry gets a `ValueError` from parameter
checking ("random" maps to `None`, hence also fails the callable check);
the recognized name "forgy" selects the registered initializer with no
error. -/
theorem init_dispatch_rejects_unknown (s : String) (h : s ≠ "forgy") :
    checkInitAlgorithm (.name s) = .error initErrMsg ∧
    checkInitAlgorithm (.name "forgy") = .ok _forgy_center_initializer := by
  refine ⟨?_, rfl⟩
  have hd : dictGet _init_algorithms s = none := by
    rw [dictGet_init_algorithms, if_neg h]
  show (match dictGet _init_algorithms s with
    | some f => (Except.ok f : Except String InitFn)
    | none => .error initErrMsg) = .error initErrMsg
  rw [hd]

/-- Witness for C4 at the concrete unrecognized name "kmeans". -/
theorem init_dispatch_rejects_unknown_witness :
    ("kmeans" ≠ "forgy") ∧
    (checkInitAlgorithm (.name "kmeans") = .error initErrMsg ∧
     checkInitAlgorithm (.name "forgy") = .ok _forgy_center_initializer) :=
  ⟨by decide, init_dispatch_rejects_unknown "kmeans" (by decide)⟩

/-- C3 counterexample: under the constant-zero stream, the forgy initializer
draws the instance index 0 twice — the drawn indices are not distinct, and no
configuration option exists to force distinctness (`choice` is called with
the default `replace=True`). Moreover the returned value is the index array
itself, not the corresponding instances. -/
theorem forgy_not_distinct_counterexample :
    (_forgy_center_initializer Xex 2 ⟨fun _ => 0, 0⟩).1 = [0, 0] ∧
    ¬ (_forgy_center_initializer Xex 2 ⟨fun _ => 0, 0⟩).1.Nodup := by
  constructor
  · rfl
  · rw [show (_forgy_center_initializer Xex 2 ⟨fun _ => 0, 0⟩).1 = [0, 0] from rfl]
    decide

/-- C3 amended: the forgy strategy draws `k` instance indices uniformly at
random from `[0, n)` with replacement (repeats are possible and nothing
prevents them), returns the index array (of length `k`, every entry in
`[0, n)`), depends on the instance set only through its size, and is
deterministic given the random state. -/
theorem forgy_with_replacement (X X2 : List Instance) (k : Nat)
    (rs : RandomState) (hn : 0 < X.length) (hlen : X2.length = X.length) :
    (_forgy_center_initializer X k rs).1.length = k ∧
    (∀ c ∈ (_forgy_center_initializer X k rs).1, c < X.length) ∧
    _forgy_center_initializer X2 k rs = _forgy_center_initializer X k rs := by
  refine ⟨forgy_length X k rs, forgy_mem_lt X k rs hn, ?_⟩
  unfold _forgy_center_initializer
  rw [hlen]

/-- Witness for C3 amended at a concrete input. -/
theorem forgy_with_replacement_witness :
    (0 < Xex.length ∧ ([[1], [2], [3]] : List Instance).length = Xex.length) ∧
    ((_forgy_center_initializer Xex 2 ⟨idStream, 0⟩).1.length = 2 ∧
     (∀ c ∈ (_forgy_center_initializer Xex 2 ⟨idStream, 0⟩).1, c < Xex.length) ∧
     _forgy_center_initializer [[1], [2], [3]] 2 ⟨idStream, 0⟩
       = _forgy_center_initializer Xex 2 ⟨idStream, 0⟩) :=
  ⟨⟨by decide, by decide⟩,
    forgy_with_replacement Xex [[1], [2], [3]] 2 ⟨idStream, 0⟩ (by decide) (by decide)⟩

/-- Parameters with the given cluster count and the constructor defaults
elsewhere: "forgy" initializer, "dtw" metric, `n_init` 10, `max_iter` 300. -/
def paramsK (k : Nat) : LloydsParams :=
  ⟨k, .name "forgy", "dtw", 10, 300⟩

lemma check_params_indep_fields (X : List Instance) (k k2 : Nat)
    (ia : InitAlgorithmParam) (m : String) (n n2 mi mi2 : Nat)
    (st : Nat → Nat) (rsO : Option RandomState)
    (cc cc2 lb lb2 : Option (List Nat)) (it it2 : Option ℚ) :
    _check_params X ⟨⟨k, ia, m, n, mi⟩, st, rsO, cc, lb, it⟩
      = _check_params X ⟨⟨k2, ia, m, n2, mi2⟩, st, rsO, cc2, lb2, it2⟩ := rfl

lemma check_params_stale_indep (X : List Instance) (p : LloydsParams)
    (st : Nat → Nat) (rsO : Option RandomState)
    (cc cc2 lb lb2 : Option (List Nat)) (it it2 : Option ℚ) :
    _check_params X ⟨p, st, rsO, cc, lb, it⟩
      = _check_params X ⟨p, st, rsO, cc2, lb2, it2⟩ := rfl

lemma fit_eval_ok (d : Instance → Instance → ℚ) (X : List Instance)
    (e : LloydsEstimator) (rs : RandomState) (init : InitFn)
    (hcp : _check_params X e = .ok (rs, init)) :
    _fit d X e = .ok { e with
      _random_state := some (init X e.params.n_clusters rs).2,
      cluster_centers_ := some (init X e.params.n_clusters rs).1 } := by
  unfold _fit
  rw [hcp]

lemma fit_eval_error (d : Instance → Instance → ℚ) (X : List Instance)
    (e : LloydsEstimator) (msg : String)
    (hcp : _check_params X e = .error msg) :
    _fit d X e = .error msg := by
  unfold _fit
  rw [hcp]

lemma fit_ok_shape (d : Instance → Instance → ℚ) (X : List Instance)
    (e e2 : LloydsEstimator) (hfit : _fit d X e = .ok e2) :
    ∃ rs init, _check_params X e = .ok (rs, init) ∧
      e2 = { e with
        _random_state := some (init X e.params.n_clusters rs).2,
        cluster_centers_ := some (init X e.params.n_clusters rs).1 } := by
  cases hcp : _check_params X e with
  | error msg =>
    rw [fit_eval_error d X e msg hcp] at hfit
    exact absurd hfit (by simp)
  | ok v =>
    obtain ⟨rs, init⟩ := v
    rw [fit_eval_ok d X e rs init hcp] at hfit
    exact ⟨rs, init, rfl, (Except.ok.inj hfit).symm⟩

lemma check_params_ok_inv (X : List Instance) (e : LloydsEstimator)
    (rs : RandomState) (init : InitFn)
    (hcp : _check_params X e = .ok (rs, init)) :
    rs = resolveRandomState e ∧
    ∃ u, distance_factory e.params.metric = .ok u ∧
      checkInitAlgorithm e.params.init_algorithm = .ok init := by
  cases hdm : distance_factory e.params.metric with
  | error msg =>
    exfalso
    unfold _check_params at hcp
    rw [hdm] at hcp
    simp at hcp
  | ok u =>
    cases hia : checkInitAlgorithm e.params.init_algorithm with
    | error msg =>
      exfalso
      unfold _check_params at hcp
      rw [hdm, hia] at hcp
      simp at hcp
    | ok f =>
      unfold _check_params at hcp
      rw [hdm, hia] at hcp
      have hp := Except.ok.inj hcp
      rw [Prod.mk.injEq] at hp
      exact ⟨hp.1.symm, u, rfl, by rw [hp.2]⟩

/-- C5 counterexample: parameter checking succeeds for a non-positive cluster
count (`n_clusters = 0`) and for a cluster count exceeding the number of
instances (`n_clusters = 5` on 3 instances) — no configuration error is
raised, and in the second case the whole fit completes and publishes fitted
state (five center indices). -/
theorem check_params_accepts_bad_cluster_counts :
    _check_params Xex (mkEstimator (paramsK 0) idStream)
      = .ok (⟨idStream, 0⟩, _forgy_center_initializer) ∧
    _check_params Xex (mkEstimator (paramsK 5) idStream)
      = .ok (⟨idStream, 0⟩, _forgy_center_initializer) ∧
    (_fit sqDist Xex (mkEstimator (paramsK 5) idStream)).toOption.map
        (fun r => r.cluster_centers_) = some (some [0, 1, 2, 0, 1]) := by
  refine ⟨rfl, rfl, rfl⟩

/-- C5 amended: parameter checking validates only the metric name and the
initializer; its outcome is entirely independent of `n_clusters` (as well as
of `n_init`, `max_iter` and the stale fitted attributes), so non-positive
cluster counts and counts exceeding the instance count pass validation
without any configuration error. -/
theorem check_params_ignores_cluster_count (X : List Instance) (k k2 : Nat)
    (ia : InitAlgorithmParam) (m : String) (n n2 mi mi2 : Nat)
    (st : Nat → Nat) (rsO : Option RandomState)
    (cc cc2 lb lb2 : Option (List Nat)) (it it2 : Option ℚ) :
    _check_params X ⟨⟨k, ia, m, n, mi⟩, st, rsO, cc, lb, it⟩
      = _check_params X ⟨⟨k2, ia, m, n2, mi2⟩, st, rsO, cc2, lb2, it2⟩ :=
  check_params_indep_fields X k k2 ia m n n2 mi mi2 st rsO cc cc2 lb lb2 it it2

/-- The default-configured estimator with one cluster and the identity seed
stream, and its fit result. -/
def e7 : LloydsEstimator := mkEstimator (paramsK 1) idStream

/-- The estimator state after one successful `_fit` of `e7` on `Xex`: the
cached random state has advanced by one draw and `cluster_centers_` holds the
single drawn index. -/
def e7fit : LloydsEstimator :=
  { e7 with _random_state := some ⟨idStream, 1⟩, cluster_centers_ := some [0] }

/-- C6 counterexample: a fit configured with `n_init = 4` behaves exactly like
a fit with `n_init = 1`: the pipeline runs once, one random draw is consumed
(final stream position 1, not 4), and no inertia is recorded (`intertia_`
stays `None`) — so no restart selection by lowest inertia takes place, and no
selector exists that could pick run index 1 among inertias
`[5.2, 3.1, 3.1, 4.0]`. -/
theorem fit_no_restart_selection_cex :
    (_fit sqDist Xex (mkEstimator ⟨1, .name "forgy", "dtw", 4, 300⟩ idStream)).toOption.map
        (fun r => (r.cluster_centers_, r.intertia_, r._random_state.map (fun q => q.pos)))
      = (_fit sqDist Xex (mkEstimator ⟨1, .name "forgy", "dtw", 1, 300⟩ idStream)).toOption.map
        (fun r => (r.cluster_centers_, r.intertia_, r._random_state.map (fun q => q.pos)))
      ∧
    (_fit sqDist Xex (mkEstimator ⟨1, .name "forgy", "dtw", 4, 300⟩ idStream)).toOption.map
        (fun r => (r.cluster_centers_, r.intertia_, r._random_state.map (fun q => q.pos)))
      = some (some [0], none, some 1) :=
  ⟨rfl, rfl⟩

/-- C6 amended: `_fit` runs the initialize-and-assign pipeline exactly once
regardless of `n_init`: the fitted observable state is independent of
`n_init`, and no inertia is ever computed or compared (`intertia_` keeps its
prior value instead of the claimed minimum over restarts). -/
theorem fit_single_run_ignores_n_init (d : Instance → Instance → ℚ)
    (X : List Instance) (k : Nat) (ia : InitAlgorithmParam) (m : String)
    (n n2 mi : Nat) (st : Nat → Nat) (rsO : Option RandomState)
    (cc lb : Option (List Nat)) (it : Option ℚ) :
    (_fit d X ⟨⟨k, ia, m, n, mi⟩, st, rsO, cc, lb, it⟩).toOption.map
        (fun r => (r.cluster_centers_, r.labels_, r.intertia_, r._random_state))
      = (_fit d X ⟨⟨k, ia, m, n2, mi⟩, st, rsO, cc, lb, it⟩).toOption.map
        (fun r => (r.cluster_centers_, r.labels_, r.intertia_, r._random_state)) ∧
    (_fit d X ⟨⟨k, ia, m, n, mi⟩, st, rsO, cc, lb, it⟩).toOption.map
        (fun r => r.intertia_)
      = (_fit d X ⟨⟨k, ia, m, n, mi⟩, st, rsO, cc, lb, it⟩).toOption.map
        (fun _ => it) := by
  have hcp12 := check_params_indep_fields X k k ia m n n2 mi mi st rsO cc cc lb lb it it
  constructor
  · cases hcp : _check_params X ⟨⟨k, ia, m, n, mi⟩, st, rsO, cc, lb, it⟩ with
    | error msg =>
      rw [fit_eval_error d X _ msg hcp, fit_eval_error d X _ msg (hcp12 ▸ hcp)]
    | ok v =>
      obtain ⟨rs, init⟩ := v
      rw [fit_eval_ok d X _ rs init hcp, fit_eval_ok d X _ rs init (hcp12 ▸ hcp)]
      rfl
  · cases hcp : _check_params X ⟨⟨k, ia, m, n, mi⟩, st, rsO, cc, lb, it⟩ with
    | error msg =>
      rw [fit_eval_error d X _ msg hcp]
      rfl
    | ok v =>
      obtain ⟨rs, init⟩ := v
      rw [fit_eval_ok d X _ rs init hcp]
      rfl

/-- C7 counterexample: two successive fit calls on the same estimator with the
same fixed seed produce different cluster centers (`[0]` then `[1]`): the
second call reuses the cached, already-advanced random state instead of
reseeding. -/
theorem refit_not_identical_cex :
    ((_fit sqDist Xex e7).toOption.bind (fun e1 =>
      (_fit sqDist Xex e1).toOption.map (fun e2 =>
        (e1.cluster_centers_, e2.cluster_centers_))))
      = some (some [0], some [1]) ∧
    (some [0] : Option (List Nat)) ≠ some [1] :=
  ⟨rfl, by decide⟩

/-- C7 amended: a fit is deterministic in the configuration, seed stream and
cached random state (stale fitted attributes do not influence it), but each
successful fit stores the advanced random state, and a subsequent fit on the
same estimator resolves its randomness from that advanced state rather than
from the seed — so repeated fits need not be identical. -/
theorem fit_determinism_amended (d : Instance → Instance → ℚ) (X : List Instance)
    (p : LloydsParams) (st : Nat → Nat) (rsO : Option RandomState)
    (cc cc2 lb lb2 : Option (List Nat)) (it it2 : Option ℚ)
    (e2 : LloydsEstimator)
    (hfit : _fit d X ⟨p, st, rsO, cc, lb, it⟩ = .ok e2) :
    ((_fit d X ⟨p, st, rsO, cc, lb, it⟩).toOption.map
        (fun r => (r.cluster_centers_, r._random_state))
      = (_fit d X ⟨p, st, rsO, cc2, lb2, it2⟩).toOption.map
        (fun r => (r.cluster_centers_, r._random_state))) ∧
    (∃ rs init, _check_params X ⟨p, st, rsO, cc, lb, it⟩ = .ok (rs, init) ∧
      e2._random_state = some (init X p.n_clusters rs).2 ∧
      resolveRandomState e2 = (init X p.n_clusters rs).2) := by
  obtain ⟨rs, init, hcp, he2⟩ := fit_ok_shape d X _ e2 hfit
  have hcp2 := (check_params_stale_indep X p st rsO cc cc2 lb lb2 it it2) ▸ hcp
  constructor
  · rw [fit_eval_ok d X _ rs init hcp, fit_eval_ok d X _ rs init hcp2]
    rfl
  · exact ⟨rs, init, hcp, by rw [he2], by rw [he2]; rfl⟩

/-- Witness for C7 amended at a concrete input (the stale-attribute variant
differs in its fitted attributes only). -/
theorem fit_determinism_amended_witness :
    (_fit sqDist Xex ⟨paramsK 1, idStream, none, none, none, none⟩ = .ok e7fit) ∧
    (((_fit sqDist Xex ⟨paramsK 1, idStream, none, none, none, none⟩).toOption.map
        (fun r => (r.cluster_centers_, r._random_state))
      = (_fit sqDist Xex
          ⟨paramsK 1, idStream, none, some [9], some [1, 2], some 3⟩).toOption.map
        (fun r => (r.cluster_centers_, r._random_state))) ∧
    (∃ rs init, _check_params Xex ⟨paramsK 1, idStream, none, none, none, none⟩
        = .ok (rs, init) ∧
      e7fit._random_state = some (init Xex (paramsK 1).n_clusters rs).2 ∧
      resolveRandomState e7fit = (init Xex (paramsK 1).n_clusters rs).2)) :=
  ⟨rfl, fit_determinism_amended sqDist Xex (paramsK 1) idStream none
    none (some [9]) none (some [1, 2]) none (some 3) e7fit rfl⟩

/-- An estimator configured with `max_iter = 0`. -/
def e8 : LloydsEstimator := mkEstimator ⟨1, .name "forgy", "dtw", 10, 0⟩ idStream

/-- C8 counterexample: with `max_iter = 0` (which nothing validates), a fit
run still performs one assignment step — the number of iterations is not
bounded by `max_iter`, which `_numba_lloyds` never even receives; no terminal
state (converged versus capped) is reported, since `_numba_lloyds` returns
`None`. -/
theorem fit_ignores_max_iter_cex :
    e8.params.max_iter = 0 ∧
    (_fit_assignment_trace sqDist Xex e8).length = 1 ∧
    ¬ ((_fit_assignment_trace sqDist Xex e8).length ≤ e8.params.max_iter) := by
  refine ⟨rfl, rfl, ?_⟩
  intro hle
  rw [show (_fit_assignment_trace sqDist Xex e8).length = 1 from rfl] at hle
  rw [show e8.params.max_iter = 0 from rfl] at hle
  exact absurd hle (by decide)

/-- C8 amended: every fit run terminates after at most one assignment step
(exactly one when parameter checking succeeds, none otherwise), independently
of `max_iter`; there is no convergence-controlled loop inside the run, and no
terminal state is reported. -/
theorem fit_single_pass_any_max_iter (d : Instance → Instance → ℚ)
    (X : List Instance) (k : Nat) (ia : InitAlgorithmParam) (m : String)
    (n mi mi2 : Nat) (st : Nat → Nat) (rsO : Option RandomState)
    (cc lb : Option (List Nat)) (it : Option ℚ) :
    _fit_assignment_trace d X ⟨⟨k, ia, m, n, mi⟩, st, rsO, cc, lb, it⟩
      = _fit_assignment_trace d X ⟨⟨k, ia, m, n, mi2⟩, st, rsO, cc, lb, it⟩ ∧
    (_fit_assignment_trace d X ⟨⟨k, ia, m, n, mi⟩, st, rsO, cc, lb, it⟩).length ≤ 1 := by
  have hcp12 := check_params_indep_fields X k k ia m n n mi mi2 st rsO cc cc lb lb it it
  constructor
  · unfold _fit_assignment_trace
    rw [hcp12]
  · unfold _fit_assignment_trace
    cases hcp : _check_params X ⟨⟨k, ia, m, n, mi⟩, st, rsO, cc, lb, it⟩ with
    | error msg => simp
    | ok v =>
      obtain ⟨rs, init⟩ := v
      simp [_numba_lloyds_assignment_trace]

/-- C9 counterexample: after a successful fit, `_predict` on the exact
training set returns `None` — not the label vector that the assignment step
against the fitted centers would produce (`[0, 0, 0]` here). No assignment
step runs at prediction time. -/
theorem predict_returns_none_cex :
    ((_fit sqDist Xex e7).toOption.map (fun e1 => _predict e1 Xex)) = some none ∧
    _assign_clusters sqDist Xex [0] = [0, 0, 0] ∧
    some (_assign_clusters sqDist Xex [0]) ≠ (none : Option (List Nat)) := by
  refine ⟨rfl, rfl, by simp⟩

/-- C9 amended: `_predict` is an unimplemented stub returning `None`, and
`_fit` never assigns `labels_`; so on the training set the predict output
degenerately equals the (absent) training label vector, while no assignment
step is executed by predict. -/
theorem predict_stub_after_fit (d : Instance → Instance → ℚ) (X : List Instance)
    (e e2 : LloydsEstimator) (hfit : _fit d X e = .ok e2) (hlb : e.labels_ = none) :
    _predict e2 X = none ∧ e2.labels_ = none ∧ _predict e2 X = e2.labels_ := by
  obtain ⟨rs, init, hcp, he2⟩ := fit_ok_shape d X e e2 hfit
  have h2 : e2.labels_ = none := by rw [he2]; exact hlb
  exact ⟨rfl, h2, by rw [h2]; rfl⟩

/-- Witness for C9 amended at a concrete input. -/
theorem predict_stub_after_fit_witness :
    (_fit sqDist Xex e7 = .ok e7fit ∧ e7.labels_ = none) ∧
    (_predict e7fit Xex = none ∧ e7fit.labels_ = none ∧
     _predict e7fit Xex = e7fit.labels_) :=
  ⟨⟨rfl, rfl⟩, predict_stub_after_fit sqDist Xex e7 e7fit rfl rfl⟩

/-- C10: for every completed fit configured with the registered "forgy"
initializer, `cluster_centers_` holds exactly the 1-d array of
`n_clusters` instance indices the initializer returned (each in
`[0, n_instances)`) — not a 3-d array of the selected series — and this
index array is what is passed as centers into the Lloyds iteration. -/
theorem fit_stores_initializer_indices (d : Instance → Instance → ℚ)
    (X : List Instance) (e e2 : LloydsEstimator)
    (hfit : _fit d X e = .ok e2)
    (hforgy : e.params.init_algorithm = .name "forgy")
    (hn : 0 < X.length) :
    e2.cluster_centers_ = some
        (_forgy_center_initializer X e.params.n_clusters (resolveRandomState e)).1 ∧
    (_forgy_center_initializer X e.params.n_clusters (resolveRandomState e)).1.length
        = e.params.n_clusters ∧
    (∀ c ∈ (_forgy_center_initializer X e.params.n_clusters (resolveRandomState e)).1,
      c < X.length) ∧
    _fit_assignment_trace d X e
      = _numba_lloyds_assignment_trace d X
          (_forgy_center_initializer X e.params.n_clusters (resolveRandomState e)).1 := by
  obtain ⟨rs, init, hcp, he2⟩ := fit_ok_shape d X e e2 hfit
  obtain ⟨hrs, u, hdm, hia⟩ := check_params_ok_inv X e rs init hcp
  have hfor : checkInitAlgorithm e.params.init_algorithm
      = .ok _forgy_center_initializer := by rw [hforgy]; rfl
  have hinit : init = _forgy_center_initializer := by
    rw [hfor] at hia
    exact (Except.ok.inj hia).symm
  subst hinit
  subst hrs
  refine ⟨?_, forgy_length X e.params.n_clusters (resolveRandomState e),
    forgy_mem_lt X e.params.n_clusters (resolveRandomState e) hn, ?_⟩
  · rw [he2]
  · unfold _fit_assignment_trace
    rw [hcp]

/-- Witness for C10 at a concrete input. -/
theorem fit_stores_initializer_indices_witness :
    (_fit sqDist Xex e7 = .ok e7fit ∧
     e7.params.init_algorithm = .name "forgy" ∧ 0 < Xex.length) ∧
    (e7fit.cluster_centers_ = some
        (_forgy_center_initializer Xex e7.params.n_clusters (resolveRandomState e7)).1 ∧
     (_forgy_center_initializer Xex e7.params.n_clusters (resolveRandomState e7)).1.length
        = e7.params.n_clusters ∧
     (∀ c ∈ (_forgy_center_initializer Xex e7.params.n_clusters (resolveRandomState e7)).1,
       c < Xex.length) ∧
     _fit_assignment_trace sqDist Xex e7
       = _numba_lloyds_assignment_trace sqDist Xex
           (_forgy_center_initializer Xex e7.params.n_clusters (resolveRandomState e7)).1) :=
  ⟨⟨rfl, rfl, by decide⟩,
    fit_stores_initializer_indices sqDist Xex e7 e7fit rfl rfl (by decide)⟩
